import Mathlib

/-!
Formal model of the `suid` library (file `suid/__init__.py`): generation of
sortable unique identifier strings and extraction of the encoded timestamp.

Timestamps are modelled as the integer nanosecond values the Python code
computes (`time_ns_to_encode` in `suid_gen`, `time_ns_encoded` in
`suid_to_datetime`); the surrounding conversions between nanosecond counts
and Python `datetime` objects are representation plumbing outside the integer
algorithm. The SHA3-512 hash value, the current clock reading and the module
counter are nondeterministic inputs of `suid_gen`, so the model takes them as
explicit parameters.
-/

/-- Errors raised by the library: `ValueError` for a bad length, `ValueError`
for an out-of-range timestamp, `KeyError` on an alphabet lookup miss
(the spec's `InvalidCharacter`), `AssertionError` for the entropy assert, and
`IndexError` for indexing an empty string. -/
inductive SuidError where
  | invalidLength (requested : Int) : SuidError
  | invalidTimestamp (t : Int) : SuidError
  | invalidCharacter (c : Char) : SuidError
  | assertionError : SuidError
  | indexError : SuidError
deriving DecidableEq

/-- Decidable equality of `Except` results, for concrete evaluations. -/
instance exceptDecEq {ε α : Type} [DecidableEq ε] [DecidableEq α] :
    DecidableEq (Except ε α)
  | .ok a, .ok b =>
      if h : a = b then .isTrue (by rw [h]) else .isFalse (by simp [h])
  | .ok _, .error _ => .isFalse (by simp)
  | .error _, .ok _ => .isFalse (by simp)
  | .error e, .error f =>
      if h : e = f then .isTrue (by rw [h]) else .isFalse (by simp [h])

/-- `UNIX_TIME_MAX_SUPPORTED = 2**59 * 50 - 1`. -/
def UNIX_TIME_MAX_SUPPORTED : Nat := 2 ^ 59 * 50 - 1

/-- `SUID_LENGTH_DEFAULT = 24`. -/
def SUID_LENGTH_DEFAULT : Int := 24

/-- `SUID_LENGTH_MAX = 108`. -/
def SUID_LENGTH_MAX : Int := 108

/-- `SUID_LENGTH_MIN = 13`. -/
def SUID_LENGTH_MIN : Int := 13

/-- `BASE32_ENCODE_ALPHABET = 'nscemwruvytbdfghj0123456789kpqzx'`. -/
def BASE32_ENCODE_ALPHABET : List Char :=
  ['n', 's', 'c', 'e', 'm', 'w', 'r', 'u', 'v', 'y', 't', 'b', 'd', 'f', 'g', 'h', 'j',
   '0', '1', '2', '3', '4', '5', '6', '7', '8', '9', 'k', 'p', 'q', 'z', 'x']

/-- `BASE16_ENCODE_ALPHABET = 'zxnscemwrbdhkpqy'`. -/
def BASE16_ENCODE_ALPHABET : List Char :=
  ['z', 'x', 'n', 's', 'c', 'e', 'm', 'w', 'r', 'b', 'd', 'h', 'k', 'p', 'q', 'y']

/-- Indexing `BASE32_ENCODE_ALPHABET[i]` (in the code always applied with
`i < 32`, where the default is unreachable). -/
def base32chr (i : Nat) : Char := BASE32_ENCODE_ALPHABET.getD i 'n'

/-- Indexing `BASE16_ENCODE_ALPHABET[i]` (in the code always applied with
`i < 16`, where the default is unreachable). -/
def base16chr (i : Nat) : Char := BASE16_ENCODE_ALPHABET.getD i 'z'

/-- `BASE32_ENCODE_ALPHABET_REVERSED`: the dict mapping each base-32 symbol to
its index; lookup of an unknown character is a `KeyError` (`none`). -/
def BASE32_ENCODE_ALPHABET_REVERSED (c : Char) : Option Nat :=
  BASE32_ENCODE_ALPHABET.findIdx? (· == c)

/-- `BASE16_ENCODE_ALPHABET_REVERSED`: the dict mapping each base-16 symbol to
its index; lookup of an unknown character is a `KeyError` (`none`). -/
def BASE16_ENCODE_ALPHABET_REVERSED (c : Char) : Option Nat :=
  BASE16_ENCODE_ALPHABET.findIdx? (· == c)

/-- The timestamp-encoding loop of `suid_gen`:
`for _ in range(k): number, mod = divmod(number, 32); result = BASE32_ENCODE_ALPHABET[mod] + result`.
Returns the final `number` and the final `result`. -/
def ts_encode_loop : Nat → Nat → List Char → Nat × List Char
  | number, 0, result => (number, result)
  | number, k + 1, result =>
      ts_encode_loop (number / 32) k (base32chr (number % 32) :: result)

/-- The hash-digit loop of `suid_gen`:
`for _ in range(k): hash_number, mod = divmod(hash_number, 32); result += BASE32_ENCODE_ALPHABET[mod]`.
Returns the final `hash_number` and the final `result`. -/
def hash_encode_loop : Nat → Nat → List Char → Nat × List Char
  | hash_number, 0, result => (hash_number, result)
  | hash_number, k + 1, result =>
      hash_encode_loop (hash_number / 32) k (result ++ [base32chr (hash_number % 32)])

/-- `suid_gen` with the module-level `_counter` passed and returned explicitly.
`at?` is the effective nanosecond timestamp of the `at` argument (`none` when
`at` is omitted), `time_ns_now` the `time_ns()` reading, and `hash_number` the
SHA3-512 digest of the entropy string, as a big-endian natural number.
Returns the result of the call together with the updated counter. -/
def suid_gen_counter (counter : Nat) (at? : Option Int) (time_ns_now : Nat)
    (hash_number : Nat) (length : Int) : Except SuidError (List Char) × Nat :=
  if length > SUID_LENGTH_MAX then (.error (.invalidLength length), counter)
  else if length < SUID_LENGTH_MIN then (.error (.invalidLength length), counter)
  else
    -- get the current value of the global counter and increment it
    let counter' := counter + 1
    let time_ns_to_encode : Int :=
      match at? with
      | some t => t
      | none => (time_ns_now : Int)
    if ¬(0 ≤ time_ns_to_encode ∧ time_ns_to_encode ≤ (UNIX_TIME_MAX_SUPPORTED : Int)) then
      (.error (.invalidTimestamp time_ns_to_encode), counter')
    else
      -- encode date/time into 12 character string carrying 59 bits
      let p := ts_encode_loop (time_ns_to_encode.toNat / 50) 11 []
      -- the first letter encodes 4 bits
      let result := base16chr p.1 :: p.2
      -- encode the hash number into the remaining characters up to the requested length
      let q := hash_encode_loop hash_number ((length - 12 - 1).toNat) result
      -- the last letter encodes 4 bits
      let result2 := q.2 ++ [base16chr (q.1 % 16)]
      if q.1 / 16 = 0 then (.error .assertionError, counter')  -- assert hash_number // 16
      else (.ok result2, counter')

/-- `suid_gen`, forgetting the counter state (the counter value only feeds the
hash input, which the model receives as `hash_number`). -/
def suid_gen (at? : Option Int) (time_ns_now : Nat) (hash_number : Nat)
    (length : Int) : Except SuidError (List Char) :=
  (suid_gen_counter 0 at? time_ns_now hash_number length).1

/-- The character-accumulation loop of `suid_to_datetime`:
`for c in suid[1:12]: number *= 32; number += BASE32_ENCODE_ALPHABET_REVERSED[c]`. -/
def ts_decode_loop : Nat → List Char → Except SuidError Nat
  | number, [] => .ok number
  | number, c :: cs =>
      match BASE32_ENCODE_ALPHABET_REVERSED c with
      | some v => ts_decode_loop (number * 32 + v) cs
      | none => .error (.invalidCharacter c)

/-- `suid_to_datetime`, modelled up to the nanosecond value `time_ns_encoded`
it decodes (`number * 50`); the trailing conversion of that value into a
microsecond-resolution Python `datetime` is outside the integer model. An
empty input raises `IndexError` at `suid[0]`. -/
def suid_to_datetime (suid : List Char) : Except SuidError Int :=
  match suid with
  | [] => .error .indexError
  | c0 :: rest =>
    -- the first letter encodes 4 bits
    match BASE16_ENCODE_ALPHABET_REVERSED c0 with
    | none => .error (.invalidCharacter c0)
    | some n0 =>
      -- the remaining 11 letters encode 5 bits each
      match ts_decode_loop n0 (rest.take 11) with
      | .error e => .error e
      | .ok number => .ok ((number * 50 : Nat) : Int)

/-! ### Alphabet facts -/

/-- Every base-32 digit character lies in the 32-symbol alphabet. -/
theorem base32chr_mem : ∀ d < 32, base32chr d ∈ BASE32_ENCODE_ALPHABET := by decide

/-- Every base-16 digit character lies in the 16-symbol alphabet. -/
theorem base16chr_mem : ∀ d < 16, base16chr d ∈ BASE16_ENCODE_ALPHABET := by decide

/-- The reverse base-32 lookup inverts the forward table. -/
theorem rev32_base32chr : ∀ d < 32, BASE32_ENCODE_ALPHABET_REVERSED (base32chr d) = some d := by
  decide

/-- The reverse base-16 lookup inverts the forward table. -/
theorem rev16_base16chr : ∀ d < 16, BASE16_ENCODE_ALPHABET_REVERSED (base16chr d) = some d := by
  decide

/-! ### Characterisation of the encoding loops -/

/-- The residual value after `k` iterations of the timestamp loop. -/
theorem ts_encode_loop_fst (k : Nat) : ∀ (n : Nat) (r : List Char),
    (ts_encode_loop n k r).1 = n / 32 ^ k := by
  induction k with
  | zero => intro n r; simp [ts_encode_loop]
  | succ k ih =>
      intro n r
      rw [ts_encode_loop, ih (n / 32) (base32chr (n % 32) :: r),
        Nat.div_div_eq_div_mul, ← pow_succ']

/-- The timestamp loop prepends its digits to the accumulator. -/
theorem ts_encode_loop_snd (k : Nat) : ∀ (n : Nat) (r : List Char),
    (ts_encode_loop n k r).2 = (ts_encode_loop n k []).2 ++ r := by
  induction k with
  | zero => intro n r; simp [ts_encode_loop]
  | succ k ih =>
      intro n r
      rw [ts_encode_loop, ts_encode_loop,
        ih (n / 32) (base32chr (n % 32) :: r), ih (n / 32) [base32chr (n % 32)],
        List.append_assoc, List.singleton_append]

/-- The digits produced by the timestamp loop: the `k` least-significant
base-32 digits of `n`, most significant first. -/
theorem ts_encode_loop_digits (k : Nat) : ∀ (n : Nat),
    (ts_encode_loop n k []).2
      = (List.range k).map (fun i => base32chr (n / 32 ^ (k - 1 - i) % 32)) := by
  induction k with
  | zero => intro n; simp [ts_encode_loop]
  | succ k ih =>
      intro n
      rw [ts_encode_loop, ts_encode_loop_snd k (n / 32) [base32chr (n % 32)], ih (n / 32),
        List.range_succ, List.map_append, List.map_singleton]
      congr 1
      · apply List.map_congr_left
        intro i hi
        have hik : i < k := List.mem_range.mp hi
        have hexp : k + 1 - 1 - i = (k - 1 - i) + 1 := by omega
        rw [Nat.div_div_eq_div_mul, ← pow_succ', hexp]
      · have hexp : k + 1 - 1 - k = 0 := by omega
        rw [hexp, pow_zero, Nat.div_one]

/-- Length of the digit string produced by the timestamp loop. -/
theorem ts_encode_loop_len (k n : Nat) : ((ts_encode_loop n k []).2).length = k := by
  rw [ts_encode_loop_digits]
  simp

/-- The residual value after `k` iterations of the hash loop. -/
theorem hash_encode_loop_fst (k : Nat) : ∀ (h : Nat) (r : List Char),
    (hash_encode_loop h k r).1 = h / 32 ^ k := by
  induction k with
  | zero => intro h r; simp [hash_encode_loop]
  | succ k ih =>
      intro h r
      rw [hash_encode_loop, ih (h / 32) (r ++ [base32chr (h % 32)]),
        Nat.div_div_eq_div_mul, ← pow_succ']

/-- The digits produced by the hash loop: the `k` least-significant base-32
digits of `h`, least significant first, appended after the accumulator. -/
theorem hash_encode_loop_snd (k : Nat) : ∀ (h : Nat) (r : List Char),
    (hash_encode_loop h k r).2
      = r ++ (List.range k).map (fun i => base32chr (h / 32 ^ i % 32)) := by
  induction k with
  | zero => intro h r; simp [hash_encode_loop]
  | succ k ih =>
      intro h r
      rw [hash_encode_loop, ih (h / 32) (r ++ [base32chr (h % 32)]),
        List.range_succ_eq_map, List.map_cons, List.map_map, List.append_assoc,
        List.singleton_append, pow_zero, Nat.div_one]
      congr 2
      apply List.map_congr_left
      intro i _
      simp only [Function.comp_apply]
      rw [Nat.div_div_eq_div_mul, ← pow_succ']

/-! ### Decoding facts -/

/-- The decoding loop distributes over appending when the first part decodes. -/
theorem ts_decode_loop_append_ok (xs : List Char) : ∀ (ys : List Char) (a m : Nat),
    ts_decode_loop a xs = .ok m → ts_decode_loop a (xs ++ ys) = ts_decode_loop m ys := by
  induction xs with
  | nil =>
      intro ys a m h
      simp only [ts_decode_loop] at h
      cases h
      rfl
  | cons c cs ih =>
      intro ys a m h
      rw [List.cons_append]
      rw [ts_decode_loop] at h ⊢
      cases hc : BASE32_ENCODE_ALPHABET_REVERSED c with
      | some v =>
          rw [hc] at h
          exact ih ys (a * 32 + v) m h
      | none =>
          rw [hc] at h
          exact Except.noConfusion h

/-- Positional base-32 decomposition of a remainder. -/
theorem mod_mul_decomp (n X : Nat) (hX : 0 < X) :
    n % (32 * X) = 32 * (n / 32 % X) + n % 32 := by
  have h2 : n = (32 * (n / 32 % X) + n % 32) + (32 * X) * (n / 32 / X) := by
    conv_lhs => rw [← Nat.div_add_mod n 32]
    conv_lhs => rw [← Nat.div_add_mod (n / 32) X]
    ring
  have ha : n / 32 % X < X := Nat.mod_lt _ hX
  have hb : n % 32 < 32 := Nat.mod_lt _ (by norm_num)
  have h1 : 32 * (n / 32 % X) + n % 32 < 32 * X := by
    calc 32 * (n / 32 % X) + n % 32 < 32 * (n / 32 % X) + 32 := by omega
      _ = 32 * (n / 32 % X + 1) := by ring
      _ ≤ 32 * X := Nat.mul_le_mul_left _ (by omega)
  conv_lhs => rw [h2]
  rw [Nat.add_mul_mod_self_left, Nat.mod_eq_of_lt h1]

/-- Decoding the digit string produced by the timestamp loop recovers the
encoded remainder, folded onto the accumulator. -/
theorem ts_decode_loop_encode (k : Nat) : ∀ (n a : Nat),
    ts_decode_loop a ((ts_encode_loop n k []).2) = .ok (a * 32 ^ k + n % 32 ^ k) := by
  induction k with
  | zero =>
      intro n a
      simp [ts_encode_loop, ts_decode_loop, Nat.mod_one]
  | succ k ih =>
      intro n a
      rw [ts_encode_loop, ts_encode_loop_snd k (n / 32) [base32chr (n % 32)],
        ts_decode_loop_append_ok _ _ _ _ (ih (n / 32) a)]
      rw [ts_decode_loop, rev32_base32chr (n % 32) (Nat.mod_lt _ (by norm_num))]
      simp only [ts_decode_loop]
      congr 1
      rw [pow_succ', mod_mul_decomp n (32 ^ k) (Nat.pos_pow_of_pos k (by norm_num))]
      ring

/-! ### Shape of `suid_gen_counter` on each input class -/

/-- Numeric value of the supported maximum. -/
theorem unix_time_max_val : UNIX_TIME_MAX_SUPPORTED = 28823037615171174399 := by
  norm_num [UNIX_TIME_MAX_SUPPORTED]

/-- The 12-character timestamp encoding of `n = time_ns // 50`: the leading
base-16 character followed by the 11-digit base-32 string. -/
def ts12 (n : Nat) : List Char :=
  base16chr (n / 32 ^ 11) :: (ts_encode_loop n 11 []).2

/-- The `k` base-32 characters extracted from the hash number, least
significant digit first. -/
def hash_digits (hash k : Nat) : List Char :=
  (List.range k).map (fun i => base32chr (hash / 32 ^ i % 32))

/-- The identifier produced on the success path of `suid_gen`:
timestamp block, `k = length - 13` hash characters, final base-16 character. -/
def suid_gen_result (t_ns hash k : Nat) : List Char :=
  ts12 (t_ns / 50) ++ hash_digits hash k ++ [base16chr (hash / 32 ^ k % 16)]

/-- An out-of-range length is rejected before the counter is touched. -/
theorem suid_gen_counter_invalid_length (counter : Nat) (at? : Option Int)
    (now hash : Nat) (len : Int) (h : len < 13 ∨ 108 < len) :
    suid_gen_counter counter at? now hash len = (.error (.invalidLength len), counter) := by
  simp only [suid_gen_counter.eq_def, SUID_LENGTH_MAX, SUID_LENGTH_MIN]
  rcases h with h | h
  · rw [if_neg (by omega), if_pos (by omega)]
  · rw [if_pos (by omega)]

/-- With a valid length, an out-of-range timestamp is rejected after the
counter increment. -/
theorem suid_gen_counter_invalid_timestamp (counter : Nat) (t : Int)
    (now hash : Nat) (len : Int) (hlen : 13 ≤ len ∧ len ≤ 108)
    (ht : t < 0 ∨ (UNIX_TIME_MAX_SUPPORTED : Int) < t) :
    suid_gen_counter counter (some t) now hash len
      = (.error (.invalidTimestamp t), counter + 1) := by
  simp only [unix_time_max_val] at ht
  simp only [suid_gen_counter.eq_def, SUID_LENGTH_MAX, SUID_LENGTH_MIN, unix_time_max_val]
  rw [if_neg (by omega), if_neg (by omega), if_pos (by omega)]

/-- With a valid length and timestamp, the call reaches the entropy assert:
it aborts when the residual hash bits are zero and otherwise returns the
assembled identifier; either way the counter has been incremented. -/
theorem suid_gen_counter_valid (counter : Nat) (t : Int) (now hash : Nat) (len : Int)
    (hlen : 13 ≤ len ∧ len ≤ 108) (ht : 0 ≤ t ∧ t ≤ (UNIX_TIME_MAX_SUPPORTED : Int)) :
    suid_gen_counter counter (some t) now hash len
      = ((if hash / 32 ^ (len - 13).toNat / 16 = 0 then .error .assertionError
          else .ok (suid_gen_result t.toNat hash ((len - 13).toNat))), counter + 1) := by
  simp only [unix_time_max_val] at ht
  simp only [suid_gen_counter.eq_def, SUID_LENGTH_MAX, SUID_LENGTH_MIN, unix_time_max_val]
  rw [if_neg (by omega), if_neg (by omega), if_neg (by omega)]
  have hk : ((len : Int) - 12 - 1).toNat = (len - 13).toNat := by omega
  simp only [hash_encode_loop_fst, hash_encode_loop_snd, ts_encode_loop_fst, hk]
  simp only [suid_gen_result, ts12, hash_digits, List.cons_append, List.append_assoc]
  split_ifs <;> rfl

/-- Success characterisation of `suid_gen`: the call returns an identifier
exactly when length and timestamp are valid and the residual hash bits are
nonzero, and the identifier is `suid_gen_result`. -/
theorem suid_gen_ok_iff (t : Int) (now hash : Nat) (len : Int) (id : List Char) :
    suid_gen (some t) now hash len = .ok id ↔
      13 ≤ len ∧ len ≤ 108 ∧ 0 ≤ t ∧ t ≤ (UNIX_TIME_MAX_SUPPORTED : Int) ∧
      hash / 32 ^ (len - 13).toNat / 16 ≠ 0 ∧
      id = suid_gen_result t.toNat hash ((len - 13).toNat) := by
  constructor
  · intro h
    rw [suid_gen] at h
    by_cases h1 : 13 ≤ len ∧ len ≤ 108
    · by_cases h2 : 0 ≤ t ∧ t ≤ (UNIX_TIME_MAX_SUPPORTED : Int)
      · rw [suid_gen_counter_valid 0 t now hash len h1 h2] at h
        by_cases h3 : hash / 32 ^ (len - 13).toNat / 16 = 0
        · rw [if_pos h3] at h
          exact Except.noConfusion h
        · rw [if_neg h3] at h
          replace h : Except.ok (suid_gen_result t.toNat hash ((len - 13).toNat))
              = Except.ok id := h
          cases h
          exact ⟨h1.1, h1.2, h2.1, h2.2, h3, rfl⟩
      · rw [suid_gen_counter_invalid_timestamp 0 t now hash len h1 (by omega)] at h
        exact Except.noConfusion h
    · rw [suid_gen_counter_invalid_length 0 (some t) now hash len (by omega)] at h
      exact Except.noConfusion h
  · rintro ⟨h1, h2, h3, h4, h5, rfl⟩
    rw [suid_gen, suid_gen_counter_valid 0 t now hash len ⟨h1, h2⟩ ⟨h3, h4⟩,
      if_neg h5]

/-- Unfolding `suid_to_datetime` on a string whose first character is in the
16-symbol alphabet. -/
theorem suid_to_datetime_cons (c0 : Char) (rest : List Char) (v : Nat)
    (h : BASE16_ENCODE_ALPHABET_REVERSED c0 = some v) :
    suid_to_datetime (c0 :: rest)
      = match ts_decode_loop v (rest.take 11) with
        | .error e => .error e
        | .ok number => .ok ((number * 50 : Nat) : Int) := by
  simp only [suid_to_datetime.eq_def, h]

/-- Numeric value of `32 ^ 11`. -/
theorem pow32_11_val : (32 : Nat) ^ 11 = 36028797018963968 := by norm_num

/-- The leading 4-bit value of a valid encoded timestamp. -/
theorem head_nibble_lt (t : Int) (h0 : 0 ≤ t) (h1 : t ≤ (UNIX_TIME_MAX_SUPPORTED : Int)) :
    t.toNat / 50 / 32 ^ 11 < 16 := by
  simp only [unix_time_max_val] at h1
  rw [pow32_11_val]
  omega

/-! ### C1: timestamp round-trip -/

/-- C1: for every timestamp `t` in `[0, UNIX_TIME_MAX_SUPPORTED]`, parsing the
identifier generated at `t` returns `t` truncated to 50-nanosecond
resolution: whenever `suid_gen` at `t` returns an identifier,
`suid_to_datetime` of that identifier is `t / 50 * 50`. -/
theorem C1_round_trip (t : Int) (now hash : Nat) (len : Int) (id : List Char)
    (hgen : suid_gen (some t) now hash len = .ok id) :
    suid_to_datetime id = .ok (t / 50 * 50) := by
  obtain ⟨h1, h2, h3, h4, h5, rfl⟩ := (suid_gen_ok_iff t now hash len id).mp hgen
  have hn : t.toNat / 50 / 32 ^ 11 < 16 := head_nibble_lt t h3 h4
  simp only [suid_gen_result, ts12, List.cons_append, List.append_assoc]
  rw [suid_to_datetime_cons _ _ _ (rev16_base16chr _ hn)]
  rw [List.take_left' (ts_encode_loop_len 11 (t.toNat / 50)),
    ts_decode_loop_encode 11 (t.toNat / 50) (t.toNat / 50 / 32 ^ 11)]
  have hdm : t.toNat / 50 / 32 ^ 11 * 32 ^ 11 + t.toNat / 50 % 32 ^ 11 = t.toNat / 50 := by
    rw [Nat.mul_comm]
    exact Nat.div_add_mod _ _
  rw [hdm]
  show (Except.ok ((t.toNat / 50 * 50 : Nat) : Int) : Except SuidError Int) = .ok (t / 50 * 50)
  congr 1
  omega

/-- Witness for C1 at `t = 1234567` ns. -/
theorem C1_round_trip_witness :
    suid_to_datetime ['z', 'n', 'n', 'n', 'n', 'n', 'n', 'n', 'n', '7', 'e', '2', 'z']
      = .ok (1234567 / 50 * 50) :=
  C1_round_trip 1234567 0 256 13 _ (by decide)

/-! ### C2: lexicographic sortability -/

/-- C2 (refuting evaluation): with identical length and hash input, the
identifier generated at `t2 = 49600` ns sorts lexicographically strictly
before the identifier generated at `t1 = 48000` ns, although `t1 ≤ t2`;
decoding the sorted pair hence yields a strictly decreasing timestamp
sequence. The base-32 alphabet is not ordered by code point (for example the
digit value 31 is `x` but the smaller digit value 30 is the larger letter
`z`), so code-point lexicographic order does not respect the encoded
timestamp order. -/
theorem C2_sortability_fails :
    suid_gen (some 48000) 0 256 13
        = .ok ['z', 'n', 'n', 'n', 'n', 'n', 'n', 'n', 'n', 'n', 'z', 'n', 'z']
    ∧ suid_gen (some 49600) 0 256 13
        = .ok ['z', 'n', 'n', 'n', 'n', 'n', 'n', 'n', 'n', 'n', 'x', 'n', 'z']
    ∧ (['z', 'n', 'n', 'n', 'n', 'n', 'n', 'n', 'n', 'n', 'x', 'n', 'z'] : List Char)
        < ['z', 'n', 'n', 'n', 'n', 'n', 'n', 'n', 'n', 'n', 'z', 'n', 'z']
    ∧ suid_to_datetime ['z', 'n', 'n', 'n', 'n', 'n', 'n', 'n', 'n', 'n', 'z', 'n', 'z']
        = .ok 48000
    ∧ suid_to_datetime ['z', 'n', 'n', 'n', 'n', 'n', 'n', 'n', 'n', 'n', 'x', 'n', 'z']
        = .ok 49600 := by
  decide

/-! ### C3: length validation -/

/-- C3: `suid_gen` fails with `InvalidLength` for every requested length below
13 or above 108 (in particular 12 and 109), and, given a valid timestamp and a
hash number with at least 480 significant bits (as a nondegenerate 512-bit
digest has), succeeds for length exactly 13 and exactly 108. -/
theorem C3_length_validation (t : Int) (now hash : Nat) (len : Int)
    (ht : 0 ≤ t ∧ t ≤ (UNIX_TIME_MAX_SUPPORTED : Int))
    (hhash : 2 ^ 479 ≤ hash) :
    (len < 13 ∨ 108 < len →
      suid_gen (some t) now hash len = .error (.invalidLength len))
    ∧ (len = 13 ∨ len = 108 →
      ∃ id, suid_gen (some t) now hash len = .ok id) := by
  constructor
  · intro h
    rw [suid_gen, suid_gen_counter_invalid_length 0 (some t) now hash len h]
  · intro h
    refine ⟨suid_gen_result t.toNat hash ((len - 13).toNat), ?_⟩
    apply (suid_gen_ok_iff t now hash len _).mpr
    refine ⟨by omega, by omega, ht.1, ht.2, ?_, rfl⟩
    rcases h with rfl | rfl
    · simp only [show ((13 : Int) - 13).toNat = 0 from rfl, pow_zero, Nat.div_one]
      intro hz
      rw [Nat.div_eq_zero_iff (by norm_num)] at hz
      have h16 : (16 : Nat) ≤ 2 ^ 479 := by norm_num
      omega
    · simp only [show ((108 : Int) - 13).toNat = 95 from rfl]
      rw [Nat.div_div_eq_div_mul, show (32 : Nat) ^ 95 * 16 = 2 ^ 479 by norm_num]
      intro hz
      rw [Nat.div_eq_zero_iff (by positivity)] at hz
      omega

/-- Witness for C3: at length 13 with a full-size hash, generation succeeds. -/
theorem C3_length_validation_witness :
    ∃ id, suid_gen (some 0) 0 (2 ^ 479) 13 = .ok id :=
  (C3_length_validation 0 0 (2 ^ 479) 13 ⟨by decide, by decide⟩ (Nat.le_refl _)).2
    (Or.inl rfl)

/-! ### C4: timestamp validation -/

/-- C4: with a length that passes the length check, `suid_gen` fails with
`InvalidTimestamp` for every effective timestamp outside
`[0, UNIX_TIME_MAX_SUPPORTED]` — both pre-epoch and far-future values — and
hence never clamps it into range. -/
theorem C4_timestamp_validation (t : Int) (now hash : Nat) (len : Int)
    (hlen : 13 ≤ len ∧ len ≤ 108)
    (ht : t < 0 ∨ (UNIX_TIME_MAX_SUPPORTED : Int) < t) :
    suid_gen (some t) now hash len = .error (.invalidTimestamp t) := by
  rw [suid_gen, suid_gen_counter_invalid_timestamp 0 t now hash len hlen ht]

/-- Witness for C4 at the pre-epoch timestamp `-1`. -/
theorem C4_timestamp_validation_witness :
    suid_gen (some (-1)) 0 0 24 = .error (.invalidTimestamp (-1)) :=
  C4_timestamp_validation (-1) 0 0 24 ⟨by decide, by decide⟩ (Or.inl (by decide))

/-! ### C5: output length and structure -/

/-- C5: a successfully generated identifier has length exactly `length` and
consists of one 16-alphabet character, eleven 32-alphabet characters, then
`length - 13` characters from the 32-alphabet, then one final 16-alphabet
character. -/
theorem C5_structure (t : Int) (now hash : Nat) (len : Int) (id : List Char)
    (hgen : suid_gen (some t) now hash len = .ok id) :
    (id.length : Int) = len ∧
    ∃ a ts mid b, id = a :: (ts ++ mid ++ [b])
      ∧ a ∈ BASE16_ENCODE_ALPHABET
      ∧ ts.length = 11 ∧ (∀ c ∈ ts, c ∈ BASE32_ENCODE_ALPHABET)
      ∧ (mid.length : Int) = len - 13 ∧ (∀ c ∈ mid, c ∈ BASE32_ENCODE_ALPHABET)
      ∧ b ∈ BASE16_ENCODE_ALPHABET := by
  obtain ⟨h1, h2, h3, h4, h5, rfl⟩ := (suid_gen_ok_iff t now hash len id).mp hgen
  constructor
  · simp only [suid_gen_result, ts12, hash_digits, List.length_append, List.length_cons,
      ts_encode_loop_len, List.length_map, List.length_range, List.length_singleton,
      List.length_nil]
    omega
  · refine ⟨base16chr (t.toNat / 50 / 32 ^ 11), (ts_encode_loop (t.toNat / 50) 11 []).2,
      hash_digits hash ((len - 13).toNat),
      base16chr (hash / 32 ^ ((len - 13).toNat) % 16), ?_, ?_, ?_, ?_, ?_, ?_, ?_⟩
    · simp [suid_gen_result, ts12, List.cons_append, List.append_assoc]
    · exact base16chr_mem _ (head_nibble_lt t h3 h4)
    · exact ts_encode_loop_len 11 _
    · intro c hc
      rw [ts_encode_loop_digits] at hc
      obtain ⟨i, _, rfl⟩ := List.mem_map.mp hc
      exact base32chr_mem _ (Nat.mod_lt _ (by norm_num))
    · simp only [hash_digits, List.length_map, List.length_range]
      omega
    · intro c hc
      obtain ⟨i, _, rfl⟩ := List.mem_map.mp hc
      exact base32chr_mem _ (Nat.mod_lt _ (by norm_num))
    · exact base16chr_mem _ (Nat.mod_lt _ (by norm_num))

/-- Witness for C5 at `t = 1234567` ns, length 13. -/
theorem C5_structure_witness :
    (((['z', 'n', 'n', 'n', 'n', 'n', 'n', 'n', 'n', '7', 'e', '2', 'z'] : List Char).length : Int)
        = 13) ∧
    ∃ a ts mid b,
      (['z', 'n', 'n', 'n', 'n', 'n', 'n', 'n', 'n', '7', 'e', '2', 'z'] : List Char)
          = a :: (ts ++ mid ++ [b])
      ∧ a ∈ BASE16_ENCODE_ALPHABET
      ∧ ts.length = 11 ∧ (∀ c ∈ ts, c ∈ BASE32_ENCODE_ALPHABET)
      ∧ (mid.length : Int) = 13 - 13 ∧ (∀ c ∈ mid, c ∈ BASE32_ENCODE_ALPHABET)
      ∧ b ∈ BASE16_ENCODE_ALPHABET :=
  C5_structure 1234567 0 256 13 _ (by decide)

/-! ### C6: the timestamp digit extraction -/

/-- C6, spec side (step 4 of the generation algorithm): divide the timestamp
by 50, emit the 11 least-significant base-32 digits of the quotient most
significant digit first as characters 2 through 12, and emit the remaining
most-significant 4-bit value through the 16-symbol alphabet as the first
character. -/
def timestamp12_of_spec (t_ns : Nat) : List Char :=
  base16chr (t_ns / 50 / 32 ^ 11)
    :: (List.range 11).map (fun i => base32chr (t_ns / 50 / 32 ^ (10 - i) % 32))

/-- C6: the first 12 characters of a generated identifier are exactly the
spec's digit extraction of the effective timestamp. -/
theorem C6_timestamp_encoding (t : Int) (now hash : Nat) (len : Int) (id : List Char)
    (hgen : suid_gen (some t) now hash len = .ok id) :
    id.take 12 = timestamp12_of_spec t.toNat := by
  obtain ⟨h1, h2, h3, h4, h5, rfl⟩ := (suid_gen_ok_iff t now hash len id).mp hgen
  simp only [suid_gen_result, ts12, List.cons_append, List.append_assoc]
  rw [show (12 : Nat) = 11 + 1 from rfl, List.take_succ_cons,
    List.take_left' (ts_encode_loop_len 11 (t.toNat / 50)),
    ts_encode_loop_digits 11 (t.toNat / 50), timestamp12_of_spec]

/-- Witness for C6 at `t = 1234567` ns. -/
theorem C6_timestamp_encoding_witness :
    (['z', 'n', 'n', 'n', 'n', 'n', 'n', 'n', 'n', '7', 'e', '2', 'z'] : List Char).take 12
      = timestamp12_of_spec (1234567 : Int).toNat :=
  C6_timestamp_encoding 1234567 0 256 13 _ (by decide)

/-! ### C7: parse validation and suffix independence -/

/-- If some character of the list is outside the base-32 alphabet, the
decoding loop fails with an `InvalidCharacter` error. -/
theorem ts_decode_loop_bad (l : List Char) : ∀ (a : Nat),
    (∃ c ∈ l, BASE32_ENCODE_ALPHABET_REVERSED c = none) →
    ∃ c, ts_decode_loop a l = .error (.invalidCharacter c) := by
  induction l with
  | nil =>
      intro a h
      obtain ⟨c, hc, _⟩ := h
      cases hc
  | cons c cs ih =>
      intro a h
      cases hc : BASE32_ENCODE_ALPHABET_REVERSED c with
      | none =>
          refine ⟨c, ?_⟩
          rw [ts_decode_loop, hc]
      | some v =>
          obtain ⟨c1, hc1, hbad⟩ := h
          rcases List.mem_cons.mp hc1 with rfl | hmem
          · rw [hc] at hbad
            cases hbad
          · obtain ⟨c2, hdec⟩ := ih (a * 32 + v) ⟨c1, hmem, hbad⟩
            refine ⟨c2, ?_⟩
            rw [ts_decode_loop, hc]
            exact hdec

/-- C7: `suid_to_datetime` fails with an `InvalidCharacter` error whenever one
of the first 12 characters of the input is outside its respective alphabet
(first character against the 16-symbol alphabet, characters 2 through 12
against the 32-symbol alphabet), and its result depends only on the first 12
characters: inputs agreeing on their first 12 characters parse identically. -/
theorem C7_parse_validation :
    (∀ (c0 : Char) (rest : List Char),
      (BASE16_ENCODE_ALPHABET_REVERSED c0 = none
        ∨ ∃ c ∈ rest.take 11, BASE32_ENCODE_ALPHABET_REVERSED c = none) →
      ∃ c, suid_to_datetime (c0 :: rest) = .error (.invalidCharacter c))
    ∧ ∀ (s1 s2 : List Char), s1.take 12 = s2.take 12 →
      suid_to_datetime s1 = suid_to_datetime s2 := by
  constructor
  · intro c0 rest h
    cases h0 : BASE16_ENCODE_ALPHABET_REVERSED c0 with
    | none =>
        refine ⟨c0, ?_⟩
        simp only [suid_to_datetime.eq_def, h0]
    | some v =>
        rcases h with h | h
        · rw [h0] at h
          cases h
        · obtain ⟨c2, hdec⟩ := ts_decode_loop_bad (rest.take 11) v h
          refine ⟨c2, ?_⟩
          rw [suid_to_datetime_cons c0 rest v h0, hdec]
  · intro s1 s2 h
    match s1, s2 with
    | [], [] => rfl
    | [], c2 :: r2 => simp at h
    | c1 :: r1, [] => simp at h
    | c1 :: r1, c2 :: r2 =>
        rw [show (12 : Nat) = 11 + 1 from rfl, List.take_succ_cons, List.take_succ_cons] at h
        injection h with h0 h1
        subst h0
        simp only [suid_to_datetime.eq_def, h1]

/-- Witness for C7: a first character outside the 16-symbol alphabet is
rejected. -/
theorem C7_parse_validation_witness :
    ∃ c, suid_to_datetime ['a'] = .error (.invalidCharacter c) :=
  C7_parse_validation.1 'a' [] (Or.inl (by decide))

/-! ### C8: the entropy assert -/

/-- C8: with valid length and timestamp, `suid_gen` checks the hash residual
left after extracting `length - 13` base-32 digits and the final base-16
digit: if no nonzero bits remain it aborts with the assertion failure instead
of returning an identifier, and otherwise it returns one. -/
theorem C8_entropy_check (t : Int) (now hash : Nat) (len : Int)
    (hlen : 13 ≤ len ∧ len ≤ 108)
    (ht : 0 ≤ t ∧ t ≤ (UNIX_TIME_MAX_SUPPORTED : Int)) :
    (hash / 32 ^ (len - 13).toNat / 16 = 0 →
      suid_gen (some t) now hash len = .error .assertionError)
    ∧ (hash / 32 ^ (len - 13).toNat / 16 ≠ 0 →
      ∃ id, suid_gen (some t) now hash len = .ok id) := by
  constructor
  · intro h0
    rw [suid_gen, suid_gen_counter_valid 0 t now hash len hlen ht, if_pos h0]
  · intro h0
    exact ⟨_, by rw [suid_gen, suid_gen_counter_valid 0 t now hash len hlen ht, if_neg h0]⟩

/-- Witness for C8: a degenerate hash number (5) aborts generation. -/
theorem C8_entropy_check_witness :
    suid_gen (some 0) 0 5 13 = .error .assertionError :=
  (C8_entropy_check 0 0 5 13 ⟨by decide, by decide⟩ ⟨by decide, by decide⟩).1 (by decide)

/-! ### C9: parsing inputs shorter than 12 characters -/

/-- C9: `suid_to_datetime` does not validate a minimum input length: on the
2-character input `xs` (both characters in their respective alphabets) it
succeeds, returning the timestamp computed from the two available characters,
`(1 * 32 + 1) * 50 = 1650` ns. -/
theorem C9_short_parse :
    (['x', 's'] : List Char).length < 12
    ∧ 'x' ∈ BASE16_ENCODE_ALPHABET ∧ 's' ∈ BASE32_ENCODE_ALPHABET
    ∧ suid_to_datetime ['x', 's'] = .ok 1650 := by decide

/-! ### C10: counter state on the two validation failures -/

/-- Omitting `at` is the same call as passing the current clock reading. -/
theorem suid_gen_counter_none (counter : Nat) (now hash : Nat) (len : Int) :
    suid_gen_counter counter none now hash len
      = suid_gen_counter counter (some (now : Int)) now hash len := rfl

/-- C10: when `suid_gen` fails with `InvalidTimestamp` the shared counter has
already been incremented by 1, while an `InvalidLength` failure leaves the
counter unchanged: the length check precedes the counter increment and the
timestamp check follows it. -/
theorem C10_counter_on_error (counter : Nat) (at? : Option Int) (now hash : Nat)
    (len : Int) :
    (∀ l, (suid_gen_counter counter at? now hash len).1 = .error (.invalidLength l) →
      (suid_gen_counter counter at? now hash len).2 = counter)
    ∧ (∀ t, (suid_gen_counter counter at? now hash len).1 = .error (.invalidTimestamp t) →
      (suid_gen_counter counter at? now hash len).2 = counter + 1) := by
  have key : ∀ (t : Int),
      (∀ l, (suid_gen_counter counter (some t) now hash len).1
          = .error (.invalidLength l) →
        (suid_gen_counter counter (some t) now hash len).2 = counter)
      ∧ (∀ t2, (suid_gen_counter counter (some t) now hash len).1
          = .error (.invalidTimestamp t2) →
        (suid_gen_counter counter (some t) now hash len).2 = counter + 1) := by
    intro t
    by_cases hlen : 13 ≤ len ∧ len ≤ 108
    · by_cases ht : 0 ≤ t ∧ t ≤ (UNIX_TIME_MAX_SUPPORTED : Int)
      · rw [suid_gen_counter_valid counter t now hash len hlen ht]
        constructor
        · intro l hl
          exfalso
          by_cases h0 : hash / 32 ^ (len - 13).toNat / 16 = 0
          · rw [if_pos h0] at hl
            simp at hl
          · rw [if_neg h0] at hl
            simp at hl
        · intro t2 _
          rfl
      · rw [suid_gen_counter_invalid_timestamp counter t now hash len hlen (by omega)]
        constructor
        · intro l hl
          exfalso
          simp at hl
        · intro t2 _
          rfl
    · rw [suid_gen_counter_invalid_length counter (some t) now hash len (by omega)]
      constructor
      · intro l _
        rfl
      · intro t2 ht2
        exfalso
        simp at ht2
  cases at? with
  | none =>
      rw [suid_gen_counter_none counter now hash len]
      exact key (now : Int)
  | some t => exact key t

/-- Witness for C10: a pre-epoch timestamp failure leaves the counter
incremented from 7 to 8. -/
theorem C10_counter_on_error_witness :
    (suid_gen_counter 7 (some (-1)) 0 0 24).2 = 7 + 1 :=
  (C10_counter_on_error 7 (some (-1)) 0 0 24).2 (-1) (by decide)
